import Mathlib

/-!
Shallow embedding of the `RateLimiter` class from `src/seed-database.ts`
(fields `queue`, `processing`, `lastCallTime`, `retryCount`, `maxRetries`,
`rateLimit`; methods `execute`, `retryWithBackoff`, `processQueue`), together
with a small-step model of the submit/drain interleaving.  Time is modelled
by an explicit integer clock (milliseconds, as `Date.now()` values); a
`setTimeout(waitTime)` advances the clock by exactly `waitTime`.
-/

namespace SeedDB

/-- Value of the `message` property of a thrown JavaScript value: either a
string, or some non-string value (which has no `includes` method). -/
inductive MsgVal where
  | str (s : String)
  | nonStr
deriving Repr, DecidableEq

/-- A thrown JavaScript value, as far as `retryWithBackoff` inspects it:
`null`, `undefined`, an object whose `message` property is present or absent,
or a `TypeError` raised by the engine itself. -/
inductive JSVal where
  | null
  | undef
  | err (message : Option MsgVal)
  | typeError (s : String)
deriving Repr, DecidableEq

/-- Prefix test on character lists, used to model `String.prototype.includes`. -/
def listIsPre : List Char → List Char → Bool
  | [], _ => true
  | _ :: _, [] => false
  | p :: ps, c :: cs => p == c && listIsPre ps cs

/-- Substring test on character lists, modelling `String.prototype.includes`. -/
def containsSub (pat : List Char) : List Char → Bool
  | [] => listIsPre pat []
  | c :: cs => listIsPre pat (c :: cs) || containsSub pat cs

/-- Model of `s.includes("429")` for a string `s`. -/
def contains429 (s : String) : Bool := containsSub ['4', '2', '9'] s.data

/-- Model of the property access `error.message`: on `null` or `undefined`
the access itself throws a `TypeError`; on an object it yields the property
(possibly absent, i.e. `undefined`). -/
def getMessage : JSVal → Except JSVal (Option MsgVal)
  | .null => .error (.typeError "Cannot read properties of null (reading message)")
  | .undef => .error (.typeError "Cannot read properties of undefined (reading message)")
  | .err m => .ok m
  | .typeError s => .ok (some (.str s))

/-- Model of `m?.includes("429")` where `m` is the (already read) `message`
property: absent gives `undefined` (falsy, here `false`); a string is tested
for the substring; a non-string value has no `includes` method, so the call
throws a `TypeError`. -/
def includesCheck : Option MsgVal → Except JSVal Bool
  | none => .ok false
  | some (.str s) => .ok (contains429 s)
  | some .nonStr => .error (.typeError "error.message.includes is not a function")

/-- Model of the full detection expression `error.message?.includes("429")`
in `retryWithBackoff`: either a boolean, or the `TypeError` the expression
itself throws. -/
def is429 (e : JSVal) : Except JSVal Bool :=
  match getMessage e with
  | .error te => .error te
  | .ok m => includesCheck m

deriving instance DecidableEq for Except

/-- One invocation of a submitted callable: how long the `await fn()` takes
(milliseconds) and whether it resolves with a value or rejects with a thrown
JavaScript value. -/
structure Attempt where
  duration : Nat
  outcome : Except JSVal Nat
deriving Repr, DecidableEq

/-- Behaviour of a submitted callable `fn`: invocation index (0 = initial
call, `k` = the k-th re-invocation) maps to that invocation's behaviour. -/
def Job := Nat → Attempt

/-- The mutable fields of the `RateLimiter` instance, as declared in the
class: `queue` (abstracted to the ids of the queued tasks), `processing`,
`lastCallTime`, `retryCount`, `maxRetries`, plus the constructor parameter
`rateLimit`. -/
structure RL where
  queuedIds : List Nat
  processing : Bool
  lastCallTime : Int
  retryCount : Nat
  maxRetries : Nat
  rateLimit : Nat
deriving Repr, DecidableEq

/-- The constructor `new RateLimiter(rateLimit)`: field initialisers
`queue = []`, `processing = false`, `lastCallTime = 0`, `retryCount = 0`,
`maxRetries = 3`; `rateLimit` is the sole constructor parameter. -/
def initRL (rateLimit : Nat) : RL :=
  { queuedIds := [], processing := false, lastCallTime := 0,
    retryCount := 0, maxRetries := 3, rateLimit := rateLimit }

/-- Result of a `retryWithBackoff` call: the instance state after the call,
the clock after the call, the clock values at which each invocation of the
callable began (in order), and the overall resolution or rejection. -/
structure RWB where
  st : RL
  clock : Int
  attempts : List Int
  result : Except JSVal Nat
deriving Repr, DecidableEq

/-- Body of `retryWithBackoff`.  The source recurses; its implicit
termination measure is `maxRetries - retryCount`, which strictly decreases
across the guarded recursive call.  That measure is made explicit here as
`fuel`; the wrapper `retryWithBackoff` instantiates it so the `fuel = 0`
branch is unreachable whenever the retry guard `retryCount < maxRetries`
holds.  The guard itself is the conjunction from the source,
`error.message?.includes("429") && this.retryCount < this.maxRetries`,
with the detection expression evaluated first (it may throw). -/
def retryAux (fn : Job) : Nat → Nat → RL → Int → RWB
  | fuel, k, st, clock =>
    let a := fn k
    let clock1 := clock + (a.duration : Int)
    match a.outcome with
    | .ok v => ⟨st, clock1, [clock], .ok v⟩
    | .error e =>
      match is429 e with
      | .error te => ⟨st, clock1, [clock], .error te⟩
      | .ok b =>
        match fuel with
        | 0 => ⟨st, clock1, [clock], .error e⟩
        | fuel' + 1 =>
          if b = true ∧ st.retryCount < st.maxRetries then
            let st1 := { st with retryCount := st.retryCount + 1 }
            let backoff : Nat := 2 ^ (st.retryCount + 1) * 1000
            let r := retryAux fn fuel' (k + 1) st1 (clock1 + (backoff : Int))
            ⟨r.st, r.clock, clock :: r.attempts, r.result⟩
          else ⟨st, clock1, [clock], .error e⟩

/-- `this.retryWithBackoff(fn)` entered with the callable on its `k`-th
invocation: try `await fn()`; on a thrown error, if the detection expression
yields true and `retryCount < maxRetries`, increment `retryCount`, wait
`2 ^ retryCount * 1000` ms and recurse; otherwise rethrow. -/
def retryWithBackoff (fn : Job) (k : Nat) (st : RL) (clock : Int) : RWB :=
  retryAux fn (st.maxRetries - st.retryCount + 1) k st clock

/-- Did the task resolve (versus reject)?  Selects between the `resolve`
path (which also resets `retryCount`) and the `catch`/`reject` path of the
closure queued by `execute`. -/
def exceptOk : Except JSVal Nat → Bool
  | .ok _ => true
  | .error _ => false

/-- Observable history of one queued task: the clock when
`this.lastCallTime = Date.now()` was stamped (the start of the execution),
the clock at each invocation of the callable, the clock at settlement, and
the value the promise of `execute` settles with. -/
structure JobTrace where
  startTime : Int
  attemptTimes : List Int
  endTime : Int
  result : Except JSVal Nat
deriving Repr, DecidableEq

/-- Result of running one queued task to settlement. -/
structure TaskResult where
  st : RL
  clock : Int
  trace : JobTrace
deriving Repr, DecidableEq

/-- The closure pushed by `execute`, run at clock `clock`: compute
`timeSinceLastCall = now - lastCallTime`; if below `rateLimit`, wait the
remainder; stamp `lastCallTime = Date.now()`; run `retryWithBackoff fn`;
on resolution reset `retryCount` to 0 and resolve, otherwise reject. -/
def runTask (fn : Job) (st : RL) (clock : Int) : TaskResult :=
  let now := clock
  let timeSince := now - st.lastCallTime
  let start := if timeSince < (st.rateLimit : Int)
    then now + ((st.rateLimit : Int) - timeSince) else now
  let st1 := { st with lastCallTime := start }
  let r := retryWithBackoff fn 0 st1 start
  let st2 := if exceptOk r.result then { r.st with retryCount := 0 } else r.st
  ⟨st2, r.clock, ⟨start, r.attempts, r.clock, r.result⟩⟩

/-- Result of draining a list of queued tasks. -/
structure QueueRun where
  st : RL
  clock : Int
  traces : List JobTrace
deriving Repr, DecidableEq

/-- The drain loop of `processQueue` over an already-queued list of tasks:
each task is shifted from the front and awaited to settlement before the
next is shifted; a task rejecting does not stop the loop (the closure
catches every error and rejects only its own caller). -/
def runQueue (jobs : List Job) (st : RL) (clock : Int) : QueueRun :=
  match jobs with
  | [] => ⟨st, clock, []⟩
  | fn :: rest =>
    let r := runTask fn st clock
    let q := runQueue rest r.st r.clock
    ⟨q.st, q.clock, r.trace :: q.traces⟩

/-- State of the submit/drain interleaving model: the queue (task ids in
order), the `processing` flag, the number of drain loops currently active,
the task currently being awaited by the drain loop (if any), the tasks that
finished (in the order they ran), and every task ever submitted (in
submission order). -/
structure QState where
  queue : List Nat
  processing : Bool
  drains : Nat
  running : Option Nat
  executed : List Nat
  submitted : List Nat
deriving Repr, DecidableEq

/-- Events of the interleaving model: a caller invokes `execute` (which
pushes the task and synchronously calls `processQueue`), or the task
currently awaited by the drain loop settles (the `await task()` returns and
the `while` loop moves on). -/
inductive Act where
  | submit (j : Nat)
  | finish
deriving Repr, DecidableEq

/-- Fresh limiter: empty queue, no drain active. -/
def initQ : QState := ⟨[], false, 0, none, [], []⟩

/-- One step of the interleaving model.  `submit j` appends `j` to the queue
and runs the synchronous prefix of `processQueue`: if `processing` is set
(or the queue is empty) it returns at once; otherwise it sets `processing`,
starts a drain loop, and the loop synchronously shifts the head task and
begins awaiting it.  `finish` settles the awaited task: the loop shifts the
next task if one is queued, else clears `processing` and the drain ends. -/
def stepQ (s : QState) (a : Act) : QState :=
  match a with
  | .submit j =>
    let s1 := { s with queue := s.queue ++ [j], submitted := s.submitted ++ [j] }
    if s1.processing || s1.queue.isEmpty then s1
    else
      match s1.queue with
      | [] => s1
      | t :: rest =>
        { s1 with processing := true, drains := s1.drains + 1,
                  queue := rest, running := some t }
  | .finish =>
    match s.running with
    | none => s
    | some j =>
      let s1 := { s with executed := s.executed ++ [j], running := none }
      match s1.queue with
      | [] => { s1 with processing := false, drains := s1.drains - 1 }
      | t :: rest => { s1 with queue := rest, running := some t }

/-- Run the interleaving model from a fresh limiter. -/
def runActs (acts : List Act) : QState := acts.foldl stepQ initQ

/-- Invariant of the interleaving model: the finished, in-flight and queued
tasks, in that order, are exactly the submitted tasks in submission order;
the number of active drain loops is 1 when `processing` is set and 0
otherwise; and when no drain is active nothing is in flight or queued. -/
def InvQ (s : QState) : Prop :=
  s.executed ++ s.running.toList ++ s.queue = s.submitted ∧
  s.drains = (if s.processing then 1 else 0) ∧
  (s.processing = false → s.running = none ∧ s.queue = [])

/-- Every step of the interleaving model preserves the invariant. -/
lemma stepQ_inv (s : QState) (a : Act) (h : InvQ s) : InvQ (stepQ s a) := by
  obtain ⟨h1, h2, h3⟩ := h
  cases a with
  | submit j =>
    cases hproc : s.processing with
    | true =>
      simp only [stepQ, hproc, Bool.true_or, if_true]
      refine ⟨?_, ?_, ?_⟩
      · simp only [← h1, List.append_assoc]
      · simpa [hproc] using h2
      · intro hf; cases hf
    | false =>
      obtain ⟨hrun, hq⟩ := h3 hproc
      simp [hproc] at h2
      simp only [stepQ, hproc, hq, hrun, List.nil_append, List.isEmpty_cons,
        Bool.false_or, if_false]
      simp only [Option.toList_none, List.append_nil, hq, hrun] at h1
      refine ⟨?_, ?_, ?_⟩
      · simp [h1]
      · simp [h2]
      · intro hf; cases hf
  | finish =>
    cases hrun : s.running with
    | none =>
      simp only [stepQ, hrun]
      exact ⟨h1, h2, h3⟩
    | some j =>
      have hproc : s.processing = true := by
        cases hp : s.processing
        · obtain ⟨hrn, -⟩ := h3 hp
          rw [hrun] at hrn
          cases hrn
        · rfl
      simp [hproc] at h2
      rw [hrun] at h1
      cases hq : s.queue with
      | nil =>
        rw [hq] at h1
        simp only [stepQ, hrun, hq]
        refine ⟨?_, ?_, ?_⟩
        · simpa using h1
        · simp [h2]
        · intro _; exact ⟨rfl, rfl⟩
      | cons t rest =>
        rw [hq] at h1
        simp only [stepQ, hrun, hq]
        refine ⟨?_, ?_, ?_⟩
        · simpa [List.append_assoc] using h1
        · simpa [hproc] using h2
        · rw [hproc]; intro hf; cases hf

/-- The invariant holds along any interleaving from any invariant state. -/
lemma foldl_inv (acts : List Act) : ∀ s, InvQ s → InvQ (acts.foldl stepQ s) := by
  induction acts with
  | nil => intro s h; exact h
  | cons a rest ih => intro s h; exact ih _ (stepQ_inv s a h)

/-- The fresh limiter satisfies the invariant. -/
lemma initQ_inv : InvQ initQ := ⟨rfl, rfl, fun _ => ⟨rfl, rfl⟩⟩

/-- The invariant holds after any interleaving of submissions and
settlements. -/
lemma runActs_inv (acts : List Act) : InvQ (runActs acts) :=
  foldl_inv acts initQ initQ_inv

/-- A callable that always resolves immediately with 1. -/
def jobOk : Job := fun _ => ⟨0, .ok 1⟩

/-- An error object carrying a rate-limit-marked message. -/
def err429 : JSVal := .err (some (.str "Request failed with status code 429"))

/-- A callable that rejects with a rate-limit-marked error on every
invocation, instantly. -/
def job429 : Job := fun _ => ⟨0, .error err429⟩

/-- An error object carrying a message without the rate-limit marker. -/
def errBad : JSVal := .err (some (.str "invalid request"))

/-- A callable that rejects with a non-rate-limit error on every invocation,
taking 5 ms. -/
def jobBad : Job := fun _ => ⟨5, .error errBad⟩

/-- A callable that rejects by throwing `null` on every invocation. -/
def jobNull : Job := fun _ => ⟨0, .error .null⟩

/-- A callable that rejects with an error object that has no `message`
property. -/
def jobNoMsg : Job := fun _ => ⟨0, .error (.err none)⟩

/-- Components of the instance state that `retryWithBackoff` leaves alone
(everything except `retryCount`, which it only ever increments). -/
lemma retryAux_state (fn : Job) (fuel : Nat) : ∀ (k : Nat) (st : RL) (c : Int),
    (retryAux fn fuel k st c).st.lastCallTime = st.lastCallTime ∧
    (retryAux fn fuel k st c).st.queuedIds = st.queuedIds ∧
    (retryAux fn fuel k st c).st.processing = st.processing ∧
    (retryAux fn fuel k st c).st.maxRetries = st.maxRetries ∧
    (retryAux fn fuel k st c).st.rateLimit = st.rateLimit ∧
    st.retryCount ≤ (retryAux fn fuel k st c).st.retryCount := by
  induction fuel with
  | zero =>
    intro k st c
    simp only [retryAux]
    cases hout : (fn k).outcome with
    | ok v => simp [hout]
    | error e =>
      cases h2 : is429 e with
      | ok b => simp [hout, h2]
      | error te => simp [hout, h2]
  | succ fuel ih =>
    intro k st c
    rw [retryAux]
    dsimp only
    cases hout : (fn k).outcome with
    | ok v => simp [hout]
    | error e =>
      cases h2 : is429 e with
      | error te => simp [hout, h2]
      | ok b =>
        simp only [hout, h2]
        by_cases hc : b = true ∧ st.retryCount < st.maxRetries
        · rw [if_pos hc]
          obtain ⟨h1', h2', h3', h4', h5', h6'⟩ :=
            ih (k + 1) { st with retryCount := st.retryCount + 1 }
              (c + ((fn k).duration : Int) + ((2 ^ (st.retryCount + 1) * 1000 : Nat) : Int))
          exact ⟨h1', h2', h3', h4', h5', Nat.le_trans (Nat.le_succ _) h6'⟩
        · rw [if_neg hc]
          simp

/-- The clock never runs backwards across a `retryWithBackoff` call. -/
lemma retryAux_clock (fn : Job) (fuel : Nat) : ∀ (k : Nat) (st : RL) (c : Int),
    c ≤ (retryAux fn fuel k st c).clock := by
  induction fuel with
  | zero =>
    intro k st c
    simp only [retryAux]
    cases hout : (fn k).outcome with
    | ok v => simp [hout]
    | error e =>
      cases h2 : is429 e with
      | ok b => simp [hout, h2]
      | error te => simp [hout, h2]
  | succ fuel ih =>
    intro k st c
    rw [retryAux]
    dsimp only
    cases hout : (fn k).outcome with
    | ok v => simp [hout]
    | error e =>
      cases h2 : is429 e with
      | error te => simp [hout, h2]
      | ok b =>
        simp only [hout, h2]
        by_cases hc : b = true ∧ st.retryCount < st.maxRetries
        · rw [if_pos hc]
          exact le_trans (by omega) (ih (k + 1) _ _)
        · rw [if_neg hc]
          simp

/-- The callable is always invoked at least once, and the first invocation
happens immediately at the clock value the call was entered with. -/
lemma retryAux_attempts (fn : Job) (fuel : Nat) : ∀ (k : Nat) (st : RL) (c : Int),
    (retryAux fn fuel k st c).attempts.head? = some c ∧
    1 ≤ (retryAux fn fuel k st c).attempts.length := by
  induction fuel with
  | zero =>
    intro k st c
    simp only [retryAux]
    cases hout : (fn k).outcome with
    | ok v => simp [hout]
    | error e =>
      cases h2 : is429 e with
      | ok b => simp [hout, h2]
      | error te => simp [hout, h2]
  | succ fuel _ih =>
    intro k st c
    rw [retryAux]
    dsimp only
    cases hout : (fn k).outcome with
    | ok v => simp [hout]
    | error e =>
      cases h2 : is429 e with
      | error te => simp [hout, h2]
      | ok b =>
        simp only [hout, h2]
        by_cases hc : b = true ∧ st.retryCount < st.maxRetries
        · rw [if_pos hc]
          simp
        · rw [if_neg hc]
          simp

/-- A resolving invocation: the call returns at once with the value. -/
lemma retryAux_ok (fn : Job) (fuel k : Nat) (st : RL) (c : Int) (v : Nat)
    (hout : (fn k).outcome = .ok v) :
    retryAux fn fuel k st c = ⟨st, c + ((fn k).duration : Int), [c], .ok v⟩ := by
  cases fuel <;> (conv_lhs => rw [retryAux]) <;> simp [hout]

/-- A rejection the detection expression classifies as non-transient: the
error is rethrown at once, after a single invocation. -/
lemma retryAux_noRetry (fn : Job) (fuel k : Nat) (st : RL) (c : Int) (e : JSVal)
    (hout : (fn k).outcome = .error e) (h4 : is429 e = .ok false) :
    retryAux fn fuel k st c = ⟨st, c + ((fn k).duration : Int), [c], .error e⟩ := by
  cases fuel <;> (conv_lhs => rw [retryAux]) <;> simp [hout, h4]

/-- A rejection on which the detection expression itself throws: the thrown
`TypeError` replaces the original error, after a single invocation. -/
lemma retryAux_detectThrow (fn : Job) (fuel k : Nat) (st : RL) (c : Int) (e te : JSVal)
    (hout : (fn k).outcome = .error e) (h4 : is429 e = .error te) :
    retryAux fn fuel k st c = ⟨st, c + ((fn k).duration : Int), [c], .error te⟩ := by
  cases fuel <;> (conv_lhs => rw [retryAux]) <;> simp [hout, h4]

/-- A rate-limited rejection with retry budget left: increment `retryCount`,
wait the exponential backoff, and re-enter. -/
lemma retryAux_retryStep (fn : Job) (fuel k : Nat) (st : RL) (c : Int) (e : JSVal)
    (hout : (fn k).outcome = .error e) (h4 : is429 e = .ok true)
    (hlt : st.retryCount < st.maxRetries) (hfuel : 0 < fuel) :
    retryAux fn fuel k st c =
      ⟨(retryAux fn (fuel - 1) (k + 1) { st with retryCount := st.retryCount + 1 }
          (c + ((fn k).duration : Int) + ((2 ^ (st.retryCount + 1) * 1000 : Nat) : Int))).st,
       (retryAux fn (fuel - 1) (k + 1) { st with retryCount := st.retryCount + 1 }
          (c + ((fn k).duration : Int) + ((2 ^ (st.retryCount + 1) * 1000 : Nat) : Int))).clock,
       c :: (retryAux fn (fuel - 1) (k + 1) { st with retryCount := st.retryCount + 1 }
          (c + ((fn k).duration : Int) + ((2 ^ (st.retryCount + 1) * 1000 : Nat) : Int))).attempts,
       (retryAux fn (fuel - 1) (k + 1) { st with retryCount := st.retryCount + 1 }
          (c + ((fn k).duration : Int) + ((2 ^ (st.retryCount + 1) * 1000 : Nat) : Int))).result⟩ := by
  obtain ⟨fuel', rfl⟩ : ∃ f, fuel = f + 1 := ⟨fuel - 1, (Nat.succ_pred_eq_of_pos hfuel).symm⟩
  conv_lhs => rw [retryAux]
  simp [hout, h4, hlt]

/-- A rate-limited rejection with the budget exhausted: the error is
rethrown after this single invocation. -/
lemma retryAux_stopStep (fn : Job) (fuel k : Nat) (st : RL) (c : Int) (e : JSVal)
    (hout : (fn k).outcome = .error e) (h4 : is429 e = .ok true)
    (hge : st.maxRetries ≤ st.retryCount) :
    retryAux fn fuel k st c = ⟨st, c + ((fn k).duration : Int), [c], .error e⟩ := by
  have hnot : ¬ st.retryCount < st.maxRetries := by omega
  cases fuel <;> (conv_lhs => rw [retryAux]) <;> simp [hout, h4, hnot]

/-- Full behaviour of `retryWithBackoff` on a callable that rejects with a
rate-limit-marked error on every invocation, entered with a fresh counter
and the default budget of 3: four invocations, separated by backoff sleeps
of 2000, 4000 and 8000 ms, ending in rejection with the last error. -/
lemma retry429_eq (fn : Job) (e : Nat → JSVal)
    (he : ∀ k, (fn k).outcome = Except.error (e k))
    (h429 : ∀ k, is429 (e k) = Except.ok true)
    (st : RL) (c : Int) (hrc : st.retryCount = 0) (hmr : st.maxRetries = 3) :
    retryWithBackoff fn 0 st c =
      ⟨{ st with retryCount := 3 },
       c + ((fn 0).duration : Int) + 2000 + ((fn 1).duration : Int) + 4000
         + ((fn 2).duration : Int) + 8000 + ((fn 3).duration : Int),
       [c, c + ((fn 0).duration : Int) + 2000,
        c + ((fn 0).duration : Int) + 2000 + ((fn 1).duration : Int) + 4000,
        c + ((fn 0).duration : Int) + 2000 + ((fn 1).duration : Int) + 4000
          + ((fn 2).duration : Int) + 8000],
       Except.error (e 3)⟩ := by
  have hfuel : st.maxRetries - st.retryCount + 1 = 4 := by omega
  rw [retryWithBackoff, hfuel]
  rw [retryAux_retryStep fn 4 0 st c (e 0) (he 0) (h429 0) (by omega) (by omega)]
  simp only [hrc, hmr]
  norm_num
  rw [retryAux_retryStep fn 3 1
    ⟨st.queuedIds, st.processing, st.lastCallTime, 1, 3, st.rateLimit⟩
    (c + ((fn 0).duration : Int) + 2000) (e 1) (he 1) (h429 1) (by simp) (by decide)]
  norm_num
  rw [retryAux_retryStep fn 2 2
    ⟨st.queuedIds, st.processing, st.lastCallTime, 2, 3, st.rateLimit⟩
    (c + ((fn 0).duration : Int) + 2000 + ((fn 1).duration : Int) + 4000)
    (e 2) (he 2) (h429 2) (by simp) (by decide)]
  norm_num
  rw [retryAux_stopStep fn 1 3
    ⟨st.queuedIds, st.processing, st.lastCallTime, 3, 3, st.rateLimit⟩
    (c + ((fn 0).duration : Int) + 2000 + ((fn 1).duration : Int) + 4000
      + ((fn 2).duration : Int) + 8000)
    (e 3) (he 3) (h429 3) (by simp)]
  norm_num

/-- The stamped start of a task is the later of the clock at which the task
was dequeued and `lastCallTime + rateLimit`: the minimum-interval wait rounds
the start up to `lastCallTime + rateLimit`, and otherwise the task starts at
once. -/
lemma runTask_start (fn : Job) (st : RL) (c : Int) :
    (runTask fn st c).trace.startTime = max c (st.lastCallTime + (st.rateLimit : Int)) := by
  simp only [runTask]
  split <;> rename_i h <;> omega

/-- After a task settles, `lastCallTime` holds exactly the start stamp of
that task: `retryWithBackoff` and the success-reset never touch it. -/
lemma runTask_last (fn : Job) (st : RL) (c : Int) :
    (runTask fn st c).st.lastCallTime = (runTask fn st c).trace.startTime := by
  simp only [runTask, retryWithBackoff]
  generalize (if c - st.lastCallTime < (st.rateLimit : Int)
    then c + ((st.rateLimit : Int) - (c - st.lastCallTime)) else c) = s
  split
  · exact (retryAux_state fn _ 0 { st with lastCallTime := s } s).1
  · exact (retryAux_state fn _ 0 { st with lastCallTime := s } s).1

/-- A task changes neither the queue abstraction, the `processing` flag, nor
the configuration fields. -/
lemma runTask_frame (fn : Job) (st : RL) (c : Int) :
    (runTask fn st c).st.queuedIds = st.queuedIds ∧
    (runTask fn st c).st.processing = st.processing ∧
    (runTask fn st c).st.maxRetries = st.maxRetries ∧
    (runTask fn st c).st.rateLimit = st.rateLimit := by
  simp only [runTask, retryWithBackoff]
  generalize (if c - st.lastCallTime < (st.rateLimit : Int)
    then c + ((st.rateLimit : Int) - (c - st.lastCallTime)) else c) = s
  split <;>
    exact ⟨(retryAux_state fn _ 0 { st with lastCallTime := s } s).2.1,
      (retryAux_state fn _ 0 { st with lastCallTime := s } s).2.2.1,
      (retryAux_state fn _ 0 { st with lastCallTime := s } s).2.2.2.1,
      (retryAux_state fn _ 0 { st with lastCallTime := s } s).2.2.2.2.1⟩

/-- The settlement clock of a task is the clock the run ends with. -/
lemma runTask_end (fn : Job) (st : RL) (c : Int) :
    (runTask fn st c).trace.endTime = (runTask fn st c).clock := rfl

/-- A task settles no earlier than it starts. -/
lemma runTask_start_le_end (fn : Job) (st : RL) (c : Int) :
    (runTask fn st c).trace.startTime ≤ (runTask fn st c).trace.endTime := by
  simp only [runTask, retryWithBackoff]
  exact retryAux_clock fn _ 0 _ _

/-- A task invokes its callable at least once, the first time exactly at the
stamped start. -/
lemma runTask_attemptTimes (fn : Job) (st : RL) (c : Int) :
    (runTask fn st c).trace.attemptTimes.head? = some ((runTask fn st c).trace.startTime) ∧
    1 ≤ (runTask fn st c).trace.attemptTimes.length := by
  simp only [runTask, retryWithBackoff]
  exact retryAux_attempts fn _ 0 _ _

/-- The `retryCount` field after a task: reset to 0 on resolution, and at
least its previous value on rejection (the elevated count is kept). -/
lemma runTask_retry (fn : Job) (st : RL) (c : Int) :
    (exceptOk (runTask fn st c).trace.result = true → (runTask fn st c).st.retryCount = 0) ∧
    (exceptOk (runTask fn st c).trace.result = false →
      st.retryCount ≤ (runTask fn st c).st.retryCount) := by
  simp only [runTask, retryWithBackoff]
  generalize (if c - st.lastCallTime < (st.rateLimit : Int)
    then c + ((st.rateLimit : Int) - (c - st.lastCallTime)) else c) = s
  constructor
  · intro h
    rw [if_pos h]
  · intro h
    simp only [h, Bool.false_eq_true, if_false]
    exact (retryAux_state fn _ 0 { st with lastCallTime := s } s).2.2.2.2.2

/-- Draining never drops a task: one trace per queued job. -/
lemma runQueue_length (jobs : List Job) : ∀ (st : RL) (c : Int),
    (runQueue jobs st c).traces.length = jobs.length := by
  induction jobs with
  | nil => intro st c; rfl
  | cons fn rest ih => intro st c; simp [runQueue, ih]

/-- Draining changes neither configuration field. -/
lemma runQueue_frame (jobs : List Job) : ∀ (st : RL) (c : Int),
    (runQueue jobs st c).st.rateLimit = st.rateLimit ∧
    (runQueue jobs st c).st.maxRetries = st.maxRetries := by
  induction jobs with
  | nil => intro st c; exact ⟨rfl, rfl⟩
  | cons fn rest ih =>
    intro st c
    simp only [runQueue]
    obtain ⟨h1, h2⟩ := ih (runTask fn st c).st (runTask fn st c).clock
    obtain ⟨-, -, h3, h4⟩ := runTask_frame fn st c
    exact ⟨h1.trans h4, h2.trans h3⟩

/-- Every trace of a drain is well formed: it settles no earlier than it
starts, and its callable ran at least once, first at the stamped start. -/
lemma runQueue_mem (jobs : List Job) : ∀ (st : RL) (c : Int) (tr : JobTrace),
    tr ∈ (runQueue jobs st c).traces →
    tr.startTime ≤ tr.endTime ∧ tr.attemptTimes.head? = some tr.startTime ∧
    1 ≤ tr.attemptTimes.length := by
  induction jobs with
  | nil => intro st c tr h; simp [runQueue] at h
  | cons fn rest ih =>
    intro st c tr h
    simp only [runQueue, List.mem_cons] at h
    rcases h with h | h
    · subst h
      exact ⟨runTask_start_le_end fn st c, (runTask_attemptTimes fn st c).1,
        (runTask_attemptTimes fn st c).2⟩
    · exact ih _ _ tr h

/-- Start times of adjacent traces: the later task starts at the maximum of
the clock at which the earlier one settled and the earlier start plus the
configured interval. -/
lemma runQueue_adjacent (jobs : List Job) : ∀ (st : RL) (c : Int) (i : Nat) (a b : JobTrace),
    (runQueue jobs st c).traces.get? i = some a →
    (runQueue jobs st c).traces.get? (i + 1) = some b →
    b.startTime = max a.endTime (a.startTime + (st.rateLimit : Int)) := by
  induction jobs with
  | nil => intro st c i a b ha _hb; simp [runQueue] at ha
  | cons fn rest ih =>
    intro st c i a b ha hb
    simp only [runQueue] at ha hb
    cases i with
    | zero =>
      cases rest with
      | nil =>
        simp only [runQueue, List.get?_cons_succ] at hb
        simp at hb
      | cons g rest2 =>
        simp only [List.get?_cons_zero, Option.some.injEq] at ha
        simp only [List.get?_cons_succ, runQueue, List.get?_cons_zero,
          Option.some.injEq] at hb
        subst ha
        subst hb
        rw [runTask_start g _ _]
        rw [runTask_last fn st c, runTask_end fn st c]
        rw [(runTask_frame fn st c).2.2.2]
    | succ i =>
      simp only [List.get?_cons_succ] at ha hb
      have h := ih (runTask fn st c).st (runTask fn st c).clock i a b ha hb
      rwa [(runTask_frame fn st c).2.2.2] at h

/-- Claim C1: for every drained sequence of jobs, a later job's execution
never begins before `rateLimit` ms have elapsed since the previous job's
execution began; moreover the later start equals the maximum of the previous
settlement clock and the previous start plus `rateLimit`, so the interval is
measured from the previous start, and a long-running job adds no extra delay
beyond the configured interval. -/
theorem C1_min_interval_between_starts (jobs : List Job) (st : RL) (c : Int)
    (i : Nat) (a b : JobTrace)
    (ha : (runQueue jobs st c).traces.get? i = some a)
    (hb : (runQueue jobs st c).traces.get? (i + 1) = some b) :
    a.startTime + (st.rateLimit : Int) ≤ b.startTime ∧
    b.startTime = max a.endTime (a.startTime + (st.rateLimit : Int)) := by
  have h := runQueue_adjacent jobs st c i a b ha hb
  exact ⟨by rw [h]; exact le_max_right _ _, h⟩

/-- Witness for C1 at a concrete run: two instant jobs, interval 2000 ms. -/
theorem C1_witness :
    (⟨2000, [2000], 2000, Except.ok 1⟩ : JobTrace).startTime + ((initRL 2000).rateLimit : Int)
        ≤ (⟨4000, [4000], 4000, Except.ok 1⟩ : JobTrace).startTime ∧
    (⟨4000, [4000], 4000, Except.ok 1⟩ : JobTrace).startTime
      = max (⟨2000, [2000], 2000, Except.ok 1⟩ : JobTrace).endTime
          ((⟨2000, [2000], 2000, Except.ok 1⟩ : JobTrace).startTime
            + ((initRL 2000).rateLimit : Int)) :=
  C1_min_interval_between_starts [jobOk, jobOk] (initRL 2000) 0 0 _ _
    (by decide) (by decide)

/-- Claim C2 counterexample: two identical always-429 jobs drained in
sequence.  The first is invoked 4 times (1 initial + 3 retries); the second,
although it is the same callable, is invoked only once, because the instance
field `retryCount` is still 3 after the first job failed and is reset only
on success — so a job does NOT begin with a full retry budget regardless of
previous jobs. -/
theorem C2_counterexample :
    ((runQueue [job429, job429] (initRL 100) 0).traces.map
        (fun t => t.attemptTimes.length)) = [4, 1] ∧ ¬ (1 = 4) := by decide

/-- Claim C2, amended: the retry counter is an instance-wide field, reset to
0 only when a job resolves; a job that is rejected leaves the counter at its
elevated value, which carries into subsequent jobs. -/
theorem C2_amended_retry_reset_only_on_success (fn : Job) (st : RL) (c : Int) :
    (exceptOk (runTask fn st c).trace.result = true →
      (runTask fn st c).st.retryCount = 0) ∧
    (exceptOk (runTask fn st c).trace.result = false →
      st.retryCount ≤ (runTask fn st c).st.retryCount) :=
  runTask_retry fn st c

/-- Witness for the amended C2: a resolving job resets the counter; a
rejected job keeps it at least as large as before. -/
theorem C2_witness :
    (runTask jobOk (initRL 100) 0).st.retryCount = 0 ∧
    (initRL 100).retryCount ≤ (runTask job429 (initRL 100) 0).st.retryCount :=
  ⟨(C2_amended_retry_reset_only_on_success jobOk (initRL 100) 0).1 (by decide),
   (C2_amended_retry_reset_only_on_success job429 (initRL 100) 0).2 (by decide)⟩

/-- Claim C3 counterexample: for one always-429 job from a fresh counter,
the delay before the first retry is 2000 ms, which is `1000 * 2 ^ 1`
(2^1 seconds), not `2000 * 2 ^ 1` ms as the claim's parenthetical states. -/
theorem C3_counterexample :
    ((runQueue [job429] (initRL 100) 0).traces.map (fun t => t.attemptTimes))
        = [[100, 2100, 6100, 14100]] ∧
    ((2100 : Int) - 100 = 1000 * 2 ^ 1) ∧ ¬ ((2100 : Int) - 100 = 2000 * 2 ^ 1) := by
  decide

/-- Claim C3, amended: for a job whose callable always rejects with a
rate-limit-marked error, starting from a fresh counter with the default
budget 3, the callable is invoked exactly 4 times; the Kth retry (K = 1, 2,
3) is preceded by a sleep of exactly `1000 * 2 ^ K` ms (2^K seconds) after
the previous invocation finished; and the caller's promise rejects with the
last observed error. -/
theorem C3_amended_backoff_schedule (fn : Job) (e : Nat → JSVal) (st : RL) (c : Int)
    (he : ∀ k, (fn k).outcome = Except.error (e k))
    (h429 : ∀ k, is429 (e k) = Except.ok true)
    (hrc : st.retryCount = 0) (hmr : st.maxRetries = 3) :
    (retryWithBackoff fn 0 st c).attempts =
      [c, c + ((fn 0).duration : Int) + 1000 * 2 ^ 1,
       c + ((fn 0).duration : Int) + 1000 * 2 ^ 1 + ((fn 1).duration : Int) + 1000 * 2 ^ 2,
       c + ((fn 0).duration : Int) + 1000 * 2 ^ 1 + ((fn 1).duration : Int) + 1000 * 2 ^ 2
         + ((fn 2).duration : Int) + 1000 * 2 ^ 3] ∧
    (retryWithBackoff fn 0 st c).result = Except.error (e 3) ∧
    (runTask fn st c).trace.attemptTimes.length = 4 ∧
    (runTask fn st c).trace.result = Except.error (e 3) := by
  have h := retry429_eq fn e he h429 st c hrc hmr
  refine ⟨?_, ?_, ?_, ?_⟩
  · rw [h]; norm_num
  · rw [h]
  · simp only [runTask]
    generalize (if c - st.lastCallTime < (st.rateLimit : Int)
      then c + ((st.rateLimit : Int) - (c - st.lastCallTime)) else c) = s
    rw [retry429_eq fn e he h429 { st with lastCallTime := s } s
      (by simpa using hrc) (by simpa using hmr)]
    rfl
  · simp only [runTask]
    generalize (if c - st.lastCallTime < (st.rateLimit : Int)
      then c + ((st.rateLimit : Int) - (c - st.lastCallTime)) else c) = s
    rw [retry429_eq fn e he h429 { st with lastCallTime := s } s
      (by simpa using hrc) (by simpa using hmr)]

/-- Witness for the amended C3 at a concrete always-429 job. -/
theorem C3_witness :
    (retryWithBackoff job429 0 (initRL 100) 0).attempts = [0, 2000, 6000, 14000] ∧
    (retryWithBackoff job429 0 (initRL 100) 0).result = Except.error err429 ∧
    (runTask job429 (initRL 100) 0).trace.attemptTimes.length = 4 ∧
    (runTask job429 (initRL 100) 0).trace.result = Except.error err429 := by
  have h := C3_amended_backoff_schedule job429 (fun _ => err429) (initRL 100) 0
    (fun _ => rfl) (fun _ => (by decide : is429 err429 = Except.ok true)) rfl rfl
  simpa [job429] using h

/-- Claim C4: a job whose callable rejects with an error the detection
expression classifies as non-transient is rejected to the caller at once,
with that exact error, after exactly one invocation and with no backoff
sleep (it settles exactly one invocation-duration after its start). -/
theorem C4_non_ratelimit_error_rejects_immediately (fn : Job) (st : RL) (c : Int)
    (e : JSVal) (hout : (fn 0).outcome = Except.error e)
    (h4 : is429 e = Except.ok false) :
    (runTask fn st c).trace.result = Except.error e ∧
    (runTask fn st c).trace.attemptTimes.length = 1 ∧
    (runTask fn st c).trace.endTime
      = (runTask fn st c).trace.startTime + ((fn 0).duration : Int) := by
  simp only [runTask, retryWithBackoff]
  generalize (if c - st.lastCallTime < (st.rateLimit : Int)
    then c + ((st.rateLimit : Int) - (c - st.lastCallTime)) else c) = s
  rw [retryAux_noRetry fn _ 0 _ s e hout h4]
  exact ⟨rfl, rfl, rfl⟩

/-- Witness for C4 at a concrete job failing with a non-429 error. -/
theorem C4_witness :
    (runTask jobBad (initRL 100) 0).trace.result = Except.error errBad ∧
    (runTask jobBad (initRL 100) 0).trace.attemptTimes.length = 1 ∧
    (runTask jobBad (initRL 100) 0).trace.endTime
      = (runTask jobBad (initRL 100) 0).trace.startTime + ((jobBad 0).duration : Int) :=
  C4_non_ratelimit_error_rejects_immediately jobBad (initRL 100) 0 errBad rfl (by decide)

/-- Claim C5: a job's failure never halts the drain: every queued job gets
exactly one trace (one settlement), and every queued job's callable is
invoked at least once, regardless of how earlier jobs settled. -/
theorem C5_failure_does_not_halt_queue (jobs : List Job) (st : RL) (c : Int) :
    (runQueue jobs st c).traces.length = jobs.length ∧
    ∀ tr, tr ∈ (runQueue jobs st c).traces → 1 ≤ tr.attemptTimes.length :=
  ⟨runQueue_length jobs st c, fun tr h => (runQueue_mem jobs st c tr h).2.2⟩

/-- Witness for C5: a failing job followed by a succeeding one both run. -/
theorem C5_witness :
    (runQueue [jobBad, jobOk] (initRL 100) 0).traces.length = [jobBad, jobOk].length ∧
    1 ≤ (⟨100, [100], 105, Except.error errBad⟩ : JobTrace).attemptTimes.length :=
  ⟨(C5_failure_does_not_halt_queue [jobBad, jobOk] (initRL 100) 0).1,
   (C5_failure_does_not_halt_queue [jobBad, jobOk] (initRL 100) 0).2 _ (by decide)⟩

/-- Claim C6: jobs start in FIFO submission order — a later-submitted job
starts no earlier than an earlier one — and because each task is awaited to
completion before the next is dequeued, the earlier job also settles before
the later one starts, so completion order equals start order. -/
theorem C6_fifo_start_and_completion_order (jobs : List Job) (st : RL) (c : Int)
    (i : Nat) (a b : JobTrace)
    (ha : (runQueue jobs st c).traces.get? i = some a)
    (hb : (runQueue jobs st c).traces.get? (i + 1) = some b) :
    a.startTime ≤ b.startTime ∧ a.endTime ≤ b.startTime ∧ a.endTime ≤ b.endTime := by
  have h := runQueue_adjacent jobs st c i a b ha hb
  have hmb := (runQueue_mem jobs st c b (List.get?_mem hb)).1
  have hend : a.endTime ≤ b.startTime := by rw [h]; exact le_max_left _ _
  have hstart : a.startTime ≤ b.startTime := by
    rw [h]
    have : a.startTime ≤ a.startTime + (st.rateLimit : Int) := by omega
    exact le_trans this (le_max_right _ _)
  exact ⟨hstart, hend, le_trans hend hmb⟩

/-- Witness for C6 at a concrete run: an instant job then a failing job. -/
theorem C6_witness :
    (⟨1000, [1000], 1000, Except.ok 1⟩ : JobTrace).startTime
        ≤ (⟨2000, [2000], 2005, Except.error errBad⟩ : JobTrace).startTime ∧
    (⟨1000, [1000], 1000, Except.ok 1⟩ : JobTrace).endTime
        ≤ (⟨2000, [2000], 2005, Except.error errBad⟩ : JobTrace).startTime ∧
    (⟨1000, [1000], 1000, Except.ok 1⟩ : JobTrace).endTime
        ≤ (⟨2000, [2000], 2005, Except.error errBad⟩ : JobTrace).endTime :=
  C6_fifo_start_and_completion_order [jobOk, jobBad] (initRL 1000) 0 0 _ _
    (by decide) (by decide)

/-- Claim C7: for every interleaving of submissions and task settlements,
at most one drain loop is active at a time; the finished, in-flight and
queued tasks in order are exactly the submitted tasks in submission order
(no task is run twice, skipped or reordered); once no drain is active, every
submitted task has been executed; and a submission while a drain is active
only appends to the queue. -/
theorem C7_processing_flag_reentrancy (acts : List Act) :
    (runActs acts).executed ++ (runActs acts).running.toList ++ (runActs acts).queue
        = (runActs acts).submitted ∧
    (runActs acts).drains ≤ 1 ∧
    ((runActs acts).processing = false →
      (runActs acts).executed = (runActs acts).submitted) ∧
    (∀ (s : QState) (j : Nat), s.processing = true →
      stepQ s (Act.submit j)
        = { s with queue := s.queue ++ [j], submitted := s.submitted ++ [j] }) := by
  obtain ⟨h1, h2, h3⟩ := runActs_inv acts
  refine ⟨h1, ?_, ?_, ?_⟩
  · rw [h2]; split <;> omega
  · intro hp
    obtain ⟨hr, hq⟩ := h3 hp
    rw [← h1, hr, hq]; simp
  · intro s j hp
    simp [stepQ, hp]

/-- Witness for C7: a concrete interleaving with a submission arriving while
the drain is busy, and a concrete mid-drain submission that only appends. -/
theorem C7_witness :
    (runActs [Act.submit 0, Act.submit 1, Act.finish, Act.submit 2, Act.finish,
        Act.finish]).executed
      = (runActs [Act.submit 0, Act.submit 1, Act.finish, Act.submit 2, Act.finish,
        Act.finish]).submitted ∧
    stepQ ⟨[5], true, 1, some 4, [3], [3, 4, 5]⟩ (Act.submit 9)
      = ⟨[5, 9], true, 1, some 4, [3], [3, 4, 5, 9]⟩ :=
  ⟨(C7_processing_flag_reentrancy [Act.submit 0, Act.submit 1, Act.finish,
      Act.submit 2, Act.finish, Act.finish]).2.2.1 (by decide),
   (C7_processing_flag_reentrancy []).2.2.2 ⟨[5], true, 1, some 4, [3], [3, 4, 5]⟩ 9 rfl⟩

/-- Claim C8 counterexample: the constructor takes only `rateLimit`; the
retry budget cannot be chosen at construction — every constructible instance
has `maxRetries = 3`. -/
theorem C8_counterexample :
    (initRL 2000).maxRetries = 3 ∧ ¬ ∃ r : Nat, (initRL r).maxRetries = 4 := by
  refine ⟨rfl, ?_⟩
  rintro ⟨r, h⟩
  simp [initRL] at h

/-- Claim C8, amended: the configuration surface is constructor-time and
fixed — `rateLimit` is the sole constructor parameter, `maxRetries` is the
fixed field initialiser 3 (not constructor-selectable) — and neither field
ever changes at runtime. -/
theorem C8_amended_config_surface (r : Nat) (jobs : List Job) (st : RL) (c : Int) :
    (initRL r).rateLimit = r ∧ (initRL r).maxRetries = 3 ∧
    (runQueue jobs st c).st.rateLimit = st.rateLimit ∧
    (runQueue jobs st c).st.maxRetries = st.maxRetries :=
  ⟨rfl, rfl, (runQueue_frame jobs st c).1, (runQueue_frame jobs st c).2⟩

/-- Claim C9 counterexample: the detection expression is not total — on a
thrown `null` the property access `error.message` itself throws a
`TypeError`, and the caller's promise is rejected with that `TypeError`
instead of the original thrown value. -/
theorem C9_counterexample :
    is429 JSVal.null
        = Except.error (JSVal.typeError "Cannot read properties of null (reading message)") ∧
    ((runQueue [jobNull] (initRL 100) 0).traces.map (fun t => t.result))
        = [Except.error (JSVal.typeError "Cannot read properties of null (reading message)")] ∧
    JSVal.typeError "Cannot read properties of null (reading message)" ≠ JSVal.null := by
  decide

/-- Claim C9, amended: when the detection expression evaluates to false
(message absent, or a string not containing the marker), the job rejects
immediately with the original error after one invocation; when the
detection expression itself throws (thrown `null`/`undefined`, or a
non-string `message`), the job rejects immediately after one invocation,
but with the raised `TypeError` replacing the original error.  In both
cases no retry occurs. -/
theorem C9_amended_detection_totality (fn : Job) (st : RL) (c : Int) (e : JSVal)
    (hout : (fn 0).outcome = Except.error e) :
    (is429 e = Except.ok false →
      (runTask fn st c).trace.result = Except.error e ∧
      (runTask fn st c).trace.attemptTimes.length = 1) ∧
    (∀ te, is429 e = Except.error te →
      (runTask fn st c).trace.result = Except.error te ∧
      (runTask fn st c).trace.attemptTimes.length = 1) := by
  constructor
  · intro h4
    simp only [runTask, retryWithBackoff]
    generalize (if c - st.lastCallTime < (st.rateLimit : Int)
      then c + ((st.rateLimit : Int) - (c - st.lastCallTime)) else c) = s
    rw [retryAux_noRetry fn _ 0 _ s e hout h4]
    exact ⟨rfl, rfl⟩
  · intro te h4
    simp only [runTask, retryWithBackoff]
    generalize (if c - st.lastCallTime < (st.rateLimit : Int)
      then c + ((st.rateLimit : Int) - (c - st.lastCallTime)) else c) = s
    rw [retryAux_detectThrow fn _ 0 _ s e te hout h4]
    exact ⟨rfl, rfl⟩

/-- Witness for the amended C9: a job throwing an error object without a
`message`, and a job throwing `null`. -/
theorem C9_witness :
    ((runTask jobNoMsg (initRL 100) 0).trace.result = Except.error (JSVal.err none) ∧
      (runTask jobNoMsg (initRL 100) 0).trace.attemptTimes.length = 1) ∧
    ((runTask jobNull (initRL 100) 0).trace.result
        = Except.error (JSVal.typeError "Cannot read properties of null (reading message)") ∧
      (runTask jobNull (initRL 100) 0).trace.attemptTimes.length = 1) :=
  ⟨(C9_amended_detection_totality jobNoMsg (initRL 100) 0 (JSVal.err none) rfl).1
      (by decide),
   (C9_amended_detection_totality jobNull (initRL 100) 0 JSVal.null rfl).2 _
      (by decide)⟩

/-- Claim C10: `lastCallTime` is stamped once per job, immediately before
the first invocation of its callable (the first attempt happens exactly at
the stamped start), and is left unchanged by `retryWithBackoff` — as are the
queue contents and the `processing` flag — so the next job's minimum-interval
gap is measured from this job's first attempt. -/
theorem C10_lastCallTime_once_per_job (fn : Job) (k : Nat) (st : RL) (c : Int) :
    (retryWithBackoff fn k st c).st.lastCallTime = st.lastCallTime ∧
    (retryWithBackoff fn k st c).st.queuedIds = st.queuedIds ∧
    (retryWithBackoff fn k st c).st.processing = st.processing ∧
    (runTask fn st c).st.lastCallTime = (runTask fn st c).trace.startTime ∧
    (runTask fn st c).trace.attemptTimes.head?
      = some (runTask fn st c).trace.startTime :=
  ⟨(retryAux_state fn _ k st c).1, (retryAux_state fn _ k st c).2.1,
   (retryAux_state fn _ k st c).2.2.1, runTask_last fn st c,
   (runTask_attemptTimes fn st c).1⟩

end SeedDB
